import Mathlib

/-!
Shallow embedding of `chunked_media/models.py` (wagtail_chunked_media).

Python strings are modelled as `List Char`; Django `FileField` names are
`List Char` where the empty list stands for an unset (blank) field, matching
`FieldFile.__bool__`, which tests truthiness of the stored name.
-/

namespace ChunkedMedia

/-- A Python string, modelled as its list of characters. -/
abbrev PyStr := List Char

/-- Index of the last occurrence of `c` in `p` (Python `str.rfind`,
`none` standing for the `-1` result). -/
def lastIndexOf (c : Char) : List Char → Option Nat
  | [] => none
  | a :: as =>
    match lastIndexOf c as with
    | some i => some (i + 1)
    | none => if a = c then some 0 else none

/-- Auxiliary for `pySplit`: returns the first field and the remaining fields. -/
def pySplitAux (sep : Char) : List Char → List Char × List (List Char)
  | [] => ([], [])
  | c :: cs =>
    if c = sep then ([], (pySplitAux sep cs).1 :: (pySplitAux sep cs).2)
    else (c :: (pySplitAux sep cs).1, (pySplitAux sep cs).2)

/-- Python `s.split(sep)` for a single-character separator: splits at every
occurrence of `sep`, keeping empty fields; the empty string yields one empty
field. -/
def pySplit (sep : Char) (s : List Char) : List (List Char) :=
  (pySplitAux sep s).1 :: (pySplitAux sep s).2

/-- `os.path.basename` for POSIX paths: everything after the last slash. -/
def basename (p : List Char) : List Char :=
  match lastIndexOf '/' p with
  | none => p
  | some i => p.drop (i + 1)

/-- `os.path.splitext` for POSIX paths: splits at the last dot, provided it
lies after the last slash and at least one character of the base name before
it is not itself a dot (so leading dots of the base name never start an
extension). The extension keeps its leading dot. -/
def splitext (p : List Char) : List Char × List Char :=
  match lastIndexOf '.' p with
  | none => (p, [])
  | some d =>
    let fi := match lastIndexOf '/' p with
      | none => 0
      | some si => si + 1
    if d + 1 ≤ fi then (p, [])
    else if ((p.drop fi).take (d - fi)).all (fun ch => ch = '.') then (p, [])
    else (p.take d, p.drop d)

/-- Fragment of the Python `mimetypes.types_map` table covering the
extensions exercised here; keys are lowercased extensions with their dot. -/
def typesMap : List (PyStr × PyStr) :=
  [ (".mp3".toList, "audio/mpeg".toList)
  , (".mp4".toList, "video/mp4".toList)
  , (".ogg".toList, "audio/ogg".toList)
  , (".webm".toList, "video/webm".toList)
  , (".wav".toList, "audio/x-wav".toList) ]

/-- `mimetypes.guess_type(name)[0]` for a plain filename (no scheme, no query
string, no compound encoding suffix): look the lowercased extension up in the
types table, `none` when it is not recognized. -/
def guess_type (name : PyStr) : Option PyStr :=
  typesMap.lookup ((splitext name).2.map Char.toLower)

/-- The `type` column's enumeration (`MEDIA_TYPES`). -/
inductive MediaKind
  | audio
  | video
deriving DecidableEq, Repr

/-- One `AbstractMedia` row. Only the columns that feed the logic under
verification are carried; `created_at`, `uploaded_by_user`, `tags` and
`collection` hold no logic of their own in the source. `file` and
`thumbnail` are the stored names of the two `FileField`s, the empty list
standing for a blank field. -/
structure MediaInstance where
  title : PyStr
  file : PyStr
  mediaKind : MediaKind
  width : Option Nat
  height : Option Nat
  thumbnail : PyStr
deriving DecidableEq, Repr

/-- Property `filename`: `os.path.basename(self.file.name)`. -/
def filename (inst : MediaInstance) : PyStr :=
  basename inst.file

/-- Property `thumbnail_filename`: `os.path.basename(self.thumbnail.name)`. -/
def thumbnail_filename (inst : MediaInstance) : PyStr :=
  basename inst.thumbnail

/-- Property `file_extension`: `os.path.splitext(self.filename)[1][1:]`. -/
def file_extension (inst : MediaInstance) : PyStr :=
  (splitext (filename inst)).2.drop 1

/-- Property `url`: `self.file.url`, the address the storage backend resolves
for the stored name. The backend is the parameter `urlOf`; `none` stands for
a falsy resolved address (which Python's `or` in `sources` replaces). -/
def url (urlOf : PyStr → Option PyStr) (inst : MediaInstance) : Option PyStr :=
  urlOf inst.file

/-- One entry of the `sources` sequence: the dict
`\x7b'src': ..., 'type': ...\x7d`. -/
structure SourceEntry where
  src : PyStr
  mimeType : PyStr
deriving DecidableEq, Repr

/-- Property `sources`: a one-element list whose entry pairs
`self.url or reverse('chunked_media:index')` with
`mimetypes.guess_type(self.filename)[0] or 'application/octet-stream'`.
`indexRoute` is the address `reverse` returns for the configured index
route. -/
def sources (urlOf : PyStr → Option PyStr) (indexRoute : PyStr)
    (inst : MediaInstance) : List SourceEntry :=
  [ { src := (urlOf inst.file).getD indexRoute
    , mimeType := (guess_type (filename inst)).getD ("application/octet-stream".toList) } ]

/-- A concrete media record type: the built-in `Media`, or a
host-substituted concrete type identified in the app registry by its
`(app_label, model_name)` pair. -/
inductive MediaModelType
  | media
  | custom (appLabel : PyStr) (modelName : PyStr)
deriving DecidableEq, Repr

/-- The exceptions the resolution path can raise:
`django.core.exceptions.ImproperlyConfigured` (carrying its message), and
the builtin `LookupError` that `apps.get_model` raises for an app label or
model name that is not installed (its message differs between the
missing-app and missing-model cases, so it is not carried here). -/
inductive DjangoError
  | improperlyConfigured (msg : String)
  | lookupError
deriving DecidableEq, Repr

/-- Message of the `ValueError` branch of `get_media_model`. -/
def malformedMsg : String :=
  "CHUNKED_MEDIA_MODEL must be of the form 'app_label.model_name'"

/-- Message of the `media_model is None` branch of `get_media_model`; the
configured value is interpolated as in the `%` format of the source. -/
def notInstalledMsg (value : PyStr) : String :=
  "CHUNKED_MEDIA_MODEL refers to model '" ++ String.mk value ++
    "' that has not been installed"

/-- The value of `settings.CHUNKED_MEDIA_MODEL`: absent (attribute missing,
so the attribute access raises `AttributeError`), a string, or a present
value on which the `.split` attribute is unavailable (so the same
`AttributeError` is raised). -/
inductive ConfigValue
  | absent
  | str (s : PyStr)
  | nonStringValue
deriving DecidableEq, Repr

/-- The app registry lookup `apps.get_model(app_label, model_name)`: returns
the registered class, or raises `LookupError` when the app label or model
name is not installed. It never returns `None` in any Django version that
provides `django.apps` — i.e. every version this module can import under —
so its successful result is always `some`; the `Option` in the result type
carries the dynamic `None` possibility that the caller's `is None` guard
tests. The registry is an association list from `(app_label, model_name)`
pairs to record types. -/
def registryGet (registry : List ((PyStr × PyStr) × MediaModelType))
    (appLabel modelName : PyStr) :
    Except DjangoError (Option MediaModelType) :=
  match registry.lookup (appLabel, modelName) with
  | some m => .ok (some m)
  | none => .error .lookupError

/-- `get_media_model()`: resolve the active concrete media record type from
`settings.CHUNKED_MEDIA_MODEL`.
An `AttributeError` (absent setting, or present non-string value) yields the
built-in `Media`; a `ValueError` from unpacking the split into two names
(the value does not split into exactly two fields on the dot) raises
`ImproperlyConfigured`. The `LookupError` that `apps.get_model` raises for
an uninstalled pair propagates uncaught; the source's subsequent
`media_model is None` guard, which would raise `ImproperlyConfigured`, is
kept here but is dead code, since `apps.get_model` never returns `None`. -/
def get_media_model (cfg : ConfigValue)
    (registry : List ((PyStr × PyStr) × MediaModelType)) :
    Except DjangoError MediaModelType :=
  match cfg with
  | .absent => .ok .media
  | .nonStringValue => .ok .media
  | .str s =>
    match pySplit '.' s with
    | [appLabel, modelName] =>
      match registryGet registry appLabel modelName with
      | .error e => .error e
      | .ok none => .error (.improperlyConfigured (notInstalledMsg s))
      | .ok (some m) => .ok m
    | _ => .error (.improperlyConfigured malformedMsg)

/-- One observable step of a record deletion: a storage-backend resource
removal, a model-level save, or the removal of the database row itself. -/
inductive DeleteEvent
  | resourceDeleted (name : PyStr)
  | modelSaved
  | rowRemoved
deriving DecidableEq, Repr

/-- Django `FieldFile.delete(save)`: a no-op when the field holds no file
(falsy stored name); otherwise the storage backend deletes the stored name,
and the owning model instance is saved only when `save` is true. -/
def fieldFileDelete (name : PyStr) (save : Bool) : List DeleteEvent :=
  if name = [] then []
  else [.resourceDeleted name] ++ (if save then [.modelSaved] else [])

/-- The `pre_delete` receiver `media_delete`: deletes the `file` field's
resource, then the `thumbnail` field's resource, passing `False` both times
so the `FileField` does not save the model. -/
def media_delete (inst : MediaInstance) : List DeleteEvent :=
  fieldFileDelete inst.file false ++ fieldFileDelete inst.thumbnail false

/-- The sender `media_delete` is registered for:
`@receiver(pre_delete, sender=Media)` names the built-in `Media` class. -/
def mediaDeleteSender : MediaModelType := .media

/-- Django signal dispatch for `pre_delete`: the signal is sent with the
deleted instance's concrete class as sender, and a receiver runs exactly
when the sender it registered for is that same class. -/
def preDeleteEvents (senderType : MediaModelType) (inst : MediaInstance) :
    List DeleteEvent :=
  if senderType = mediaDeleteSender then media_delete inst else []

/-- Deletion of one record of concrete class `modelType`: the framework
sends `pre_delete` synchronously, then removes the storage row. -/
def deleteRecord (modelType : MediaModelType) (inst : MediaInstance) :
    List DeleteEvent :=
  preDeleteEvents modelType inst ++ [.rowRemoved]

/-- Effect of one deletion event on the storage backend's set of stored
resources. -/
def applyEvent (store : List PyStr) : DeleteEvent → List PyStr
  | .resourceDeleted name => store.filter (fun r => r ≠ name)
  | .modelSaved => store
  | .rowRemoved => store

/-- Effect of a sequence of deletion events on the storage backend. -/
def applyEvents (events : List DeleteEvent) (store : List PyStr) : List PyStr :=
  events.foldl applyEvent store

/-! Helper lemmas about the embedded Python string operations. -/

theorem pySplitAux_snd_length (sep : Char) (s : List Char) :
    ((pySplitAux sep s).2).length = s.count sep := by
  induction s with
  | nil => rfl
  | cons c cs ih =>
    by_cases h : c = sep
    · simp [pySplitAux, h, List.count_cons, ih]
    · simp [pySplitAux, h, List.count_cons, ih, Ne.symm h]

theorem pySplit_length (sep : Char) (s : List Char) :
    (pySplit sep s).length = s.count sep + 1 := by
  simp [pySplit, pySplitAux_snd_length]

theorem pySplitAux_no_sep (sep : Char) (s : List Char) (h : sep ∉ s) :
    pySplitAux sep s = (s, []) := by
  induction s with
  | nil => rfl
  | cons c cs ih =>
    have hc : c ≠ sep := fun hh => h (hh ▸ List.mem_cons_self c cs)
    have hcs : sep ∉ cs := fun hh => h (List.mem_cons_of_mem _ hh)
    simp [pySplitAux, hc, ih hcs]

theorem pySplitAux_pair (sep : Char) (ns nm : List Char)
    (hns : sep ∉ ns) (hnm : sep ∉ nm) :
    pySplitAux sep (ns ++ sep :: nm) = (ns, [nm]) := by
  induction ns with
  | nil => simp [pySplitAux, pySplitAux_no_sep sep nm hnm]
  | cons c cs ih =>
    have hc : c ≠ sep := fun hh => hns (hh ▸ List.mem_cons_self c cs)
    have hcs : sep ∉ cs := fun hh => hns (List.mem_cons_of_mem _ hh)
    simp [pySplitAux, hc, ih hcs]

theorem pySplit_pair (sep : Char) (ns nm : List Char)
    (hns : sep ∉ ns) (hnm : sep ∉ nm) :
    pySplit sep (ns ++ sep :: nm) = [ns, nm] := by
  simp [pySplit, pySplitAux_pair sep ns nm hns hnm]

theorem lastIndexOf_eq_none (c : Char) (l : List Char) (h : c ∉ l) :
    lastIndexOf c l = none := by
  induction l with
  | nil => rfl
  | cons a as ih =>
    have ha : a ≠ c := fun hh => h (hh ▸ List.mem_cons_self a as)
    have has : c ∉ as := fun hh => h (List.mem_cons_of_mem _ hh)
    simp [lastIndexOf, ih has, ha]

theorem splitext_no_dot (p : List Char) (h : '.' ∉ p) :
    splitext p = (p, []) := by
  simp [splitext, lastIndexOf_eq_none '.' p h]

/-- The `media_model is None` branch of `get_media_model` is unreachable:
the registry lookup either raises or returns a class, never `None`. -/
theorem registryGet_never_ok_none
    (registry : List ((PyStr × PyStr) × MediaModelType))
    (appLabel modelName : PyStr) :
    registryGet registry appLabel modelName ≠ .ok none := by
  unfold registryGet
  cases registry.lookup (appLabel, modelName) <;> simp

/-! Claim theorems. -/

/-- C2: for every configuration string containing exactly one dot separator
(written `ns ++ dot :: nm` with dot-free parts) whose `(namespace, name)`
pair is registered in the type registry, `get_media_model` returns that
registered concrete record type. -/
theorem get_media_model_registered (ns nm : PyStr)
    (registry : List ((PyStr × PyStr) × MediaModelType)) (m : MediaModelType)
    (hns : '.' ∉ ns) (hnm : '.' ∉ nm)
    (hreg : registryGet registry ns nm = .ok (some m)) :
    get_media_model (.str (ns ++ '.' :: nm)) registry = .ok m := by
  simp [get_media_model, pySplit_pair '.' ns nm hns hnm, hreg]

/-- Registry used by the resolver witnesses: one substituted type under
`("myapp", "CustomMedia")`. -/
def registryW : List ((PyStr × PyStr) × MediaModelType) :=
  [ (("myapp".toList, "CustomMedia".toList),
     .custom ("myapp".toList) ("CustomMedia".toList)) ]

theorem get_media_model_registered_witness :
    get_media_model (.str ("myapp".toList ++ '.' :: "CustomMedia".toList))
      registryW = .ok (.custom ("myapp".toList) ("CustomMedia".toList)) :=
  get_media_model_registered ("myapp".toList) ("CustomMedia".toList) registryW
    (.custom ("myapp".toList) ("CustomMedia".toList))
    (by decide) (by decide) rfl

/-- C3: for every configuration string that does not contain exactly one dot
separator, `get_media_model` fails with `ImproperlyConfigured` (the
`ValueError` branch) and returns no type. -/
theorem get_media_model_malformed (s : PyStr)
    (registry : List ((PyStr × PyStr) × MediaModelType))
    (h : s.count '.' ≠ 1) :
    get_media_model (.str s) registry =
      .error (.improperlyConfigured malformedMsg) := by
  have hlen := pySplit_length '.' s
  simp only [get_media_model]
  rcases hsp : pySplit '.' s with _ | ⟨a, _ | ⟨b, _ | ⟨c, t⟩⟩⟩
  · rfl
  · rfl
  · rw [hsp] at hlen
    simp at hlen
    omega
  · rfl

theorem get_media_model_malformed_witness :
    ("myapp".toList : PyStr).count '.' ≠ 1 ∧
      get_media_model (.str ("myapp".toList)) registryW =
        .error (.improperlyConfigured malformedMsg) :=
  ⟨by decide, get_media_model_malformed ("myapp".toList) registryW (by decide)⟩

/-- C4: for every well-formed two-part dotted configuration string whose
`(namespace, name)` pair is not installed, `get_media_model` propagates the
uncaught `LookupError` raised by `apps.get_model` — not the
`ImproperlyConfigured` the claim states. The source's own
`ImproperlyConfigured` branch for this case (the `media_model is None`
guard) is dead code, because `apps.get_model` never returns `None`. -/
theorem get_media_model_unregistered (ns nm : PyStr)
    (registry : List ((PyStr × PyStr) × MediaModelType))
    (hns : '.' ∉ ns) (hnm : '.' ∉ nm)
    (hreg : registry.lookup (ns, nm) = none) :
    get_media_model (.str (ns ++ '.' :: nm)) registry =
      .error .lookupError := by
  simp [get_media_model, pySplit_pair '.' ns nm hns hnm, registryGet, hreg]

theorem get_media_model_unregistered_witness :
    get_media_model (.str ("other".toList ++ '.' :: "Thing".toList)) registryW =
      .error .lookupError :=
  get_media_model_unregistered ("other".toList) ("Thing".toList) registryW
    (by decide) (by decide) (by decide)

/-- C5: when the setting naming the active media model is absent,
`get_media_model` returns the built-in default type `Media`. -/
theorem get_media_model_absent
    (registry : List ((PyStr × PyStr) × MediaModelType)) :
    get_media_model .absent registry = .ok .media :=
  rfl

/-- C10: when the setting is present but its value has no split operation
(a non-string), the `AttributeError` is caught by the same handler as an
absent setting and `get_media_model` silently returns the built-in `Media`
instead of raising a configuration error. -/
theorem get_media_model_non_string_value
    (registry : List ((PyStr × PyStr) × MediaModelType)) :
    get_media_model .nonStringValue registry = .ok .media :=
  rfl

/-- C1: for every record with both `file` and `thumbnail` set, `media_delete`
deletes the resource referenced by `file` strictly before the one referenced
by `thumbnail`, performs no model-level save, and afterwards neither resource
remains in the storage backend. -/
theorem media_delete_deletes_file_then_thumbnail (inst : MediaInstance)
    (hf : inst.file ≠ []) (ht : inst.thumbnail ≠ []) :
    media_delete inst =
      [.resourceDeleted inst.file, .resourceDeleted inst.thumbnail] ∧
    DeleteEvent.modelSaved ∉ media_delete inst ∧
    ∀ store : List PyStr,
      inst.file ∉ applyEvents (media_delete inst) store ∧
      inst.thumbnail ∉ applyEvents (media_delete inst) store := by
  have htr : media_delete inst =
      [.resourceDeleted inst.file, .resourceDeleted inst.thumbnail] := by
    simp [media_delete, fieldFileDelete, hf, ht]
  refine ⟨htr, ?_, ?_⟩
  · rw [htr]; simp
  · intro store
    rw [htr]
    constructor <;> simp [applyEvents, applyEvent, List.mem_filter]

/-- A record with both fields set, used by the deletion witnesses. -/
def instBoth : MediaInstance :=
  { title := "clip".toList
  , file := "media/clip.mp4".toList
  , mediaKind := .video
  , width := some 640
  , height := some 480
  , thumbnail := "media_thumbnails/clip.jpg".toList }

/-- A storage state holding both of `instBoth`'s resources plus a bystander. -/
def storeW : List PyStr :=
  ["media/clip.mp4".toList, "media_thumbnails/clip.jpg".toList,
   "media/other.mp3".toList]

theorem media_delete_deletes_file_then_thumbnail_witness :
    media_delete instBoth =
      [.resourceDeleted instBoth.file, .resourceDeleted instBoth.thumbnail] ∧
    DeleteEvent.modelSaved ∉ media_delete instBoth ∧
    (instBoth.file ∉ applyEvents (media_delete instBoth) storeW ∧
     instBoth.thumbnail ∉ applyEvents (media_delete instBoth) storeW) :=
  ⟨(media_delete_deletes_file_then_thumbnail instBoth (by decide) (by decide)).1,
   (media_delete_deletes_file_then_thumbnail instBoth (by decide) (by decide)).2.1,
   (media_delete_deletes_file_then_thumbnail instBoth (by decide) (by decide)).2.2
     storeW⟩

/-- C7: for every record with `file` set and no thumbnail, `media_delete`
issues exactly one deletion, against the file resource, and that resource is
removed from storage; no deletion operation is issued against any thumbnail
reference. -/
theorem media_delete_skips_unset_thumbnail (inst : MediaInstance)
    (hf : inst.file ≠ []) (ht : inst.thumbnail = []) :
    media_delete inst = [.resourceDeleted inst.file] ∧
    ∀ store : List PyStr, inst.file ∉ applyEvents (media_delete inst) store := by
  have htr : media_delete inst = [.resourceDeleted inst.file] := by
    simp [media_delete, fieldFileDelete, hf, ht]
  refine ⟨htr, fun store => ?_⟩
  rw [htr]
  simp [applyEvents, applyEvent, List.mem_filter]

/-- A record with only `file` set, used by the deletion witnesses. -/
def instFileOnly : MediaInstance :=
  { title := "song".toList
  , file := "media/song.mp3".toList
  , mediaKind := .audio
  , width := none
  , height := none
  , thumbnail := [] }

theorem media_delete_skips_unset_thumbnail_witness :
    media_delete instFileOnly = [.resourceDeleted instFileOnly.file] ∧
    instFileOnly.file ∉ applyEvents (media_delete instFileOnly) storeW :=
  ⟨(media_delete_skips_unset_thumbnail instFileOnly (by decide) rfl).1,
   (media_delete_skips_unset_thumbnail instFileOnly (by decide) rfl).2 storeW⟩

/-- C6 counterexample: the receiver is registered with `sender=Media` only,
so when the active concrete type is a host-substituted one, deleting one of
its instances removes the row without firing the hook — the file resource
deletion never happens, refuting the claim that the hook fires for every
instance of the active concrete record type. -/
theorem media_delete_not_fired_for_custom_model :
    instBoth.file ≠ [] ∧
    deleteRecord (.custom ("myapp".toList) ("CustomMedia".toList)) instBoth =
      [DeleteEvent.rowRemoved] ∧
    DeleteEvent.resourceDeleted instBoth.file ∉
      deleteRecord (.custom ("myapp".toList) ("CustomMedia".toList)) instBoth := by
  refine ⟨by decide, rfl, by decide⟩

/-- C6 amended: the deletion hook fires synchronously and unconditionally
immediately before the storage row is removed for every instance of the
built-in `Media` type; for a host-substituted concrete type it does not fire
at all. -/
theorem media_delete_fires_only_for_builtin_media :
    (∀ inst : MediaInstance,
      deleteRecord .media inst = media_delete inst ++ [.rowRemoved]) ∧
    (∀ (a b : PyStr) (inst : MediaInstance),
      deleteRecord (.custom a b) inst = [.rowRemoved]) := by
  constructor
  · intro inst
    simp [deleteRecord, preDeleteEvents, mediaDeleteSender]
  · intro a b inst
    simp [deleteRecord, preDeleteEvents, mediaDeleteSender]

/-- C9: `file_extension` of a record whose filename is `clip.mp4` is `mp4`,
and of a record whose filename holds no dot (hence no extension) is the
empty string. -/
theorem file_extension_spec :
    (∀ inst : MediaInstance,
      filename inst = "clip.mp4".toList → file_extension inst = "mp4".toList) ∧
    (∀ inst : MediaInstance,
      '.' ∉ filename inst → file_extension inst = []) := by
  constructor
  · intro inst h
    simp only [file_extension, h]
    decide
  · intro inst h
    simp [file_extension, splitext_no_dot (filename inst) h]

/-- A record whose file has no extension, used by the accessor witnesses. -/
def instNoExt : MediaInstance :=
  { title := "raw".toList
  , file := "media/rawfile".toList
  , mediaKind := .audio
  , width := none
  , height := none
  , thumbnail := [] }

theorem file_extension_spec_witness :
    file_extension instBoth = "mp4".toList ∧ file_extension instNoExt = [] :=
  ⟨file_extension_spec.1 instBoth (by decide),
   file_extension_spec.2 instNoExt (by decide)⟩

/-- C8: for a record whose file resolves to an address and whose filename is
`song.mp3`, `sources` is the one-element sequence pairing that address with
MIME type `audio/mpeg`; when the filename's extension is unrecognized the
MIME type defaults to `application/octet-stream`; and when the file does not
resolve to an address, the entry's address falls back to the configured
index route. -/
theorem sources_spec :
    (∀ (urlOf : PyStr → Option PyStr) (route : PyStr) (inst : MediaInstance)
        (addr : PyStr),
      filename inst = "song.mp3".toList → urlOf inst.file = some addr →
      sources urlOf route inst = [⟨addr, "audio/mpeg".toList⟩]) ∧
    (∀ (urlOf : PyStr → Option PyStr) (route : PyStr) (inst : MediaInstance),
      guess_type (filename inst) = none →
      (sources urlOf route inst).map SourceEntry.mimeType =
        ["application/octet-stream".toList]) ∧
    (∀ (urlOf : PyStr → Option PyStr) (route : PyStr) (inst : MediaInstance),
      urlOf inst.file = none →
      (sources urlOf route inst).map SourceEntry.src = [route]) := by
  refine ⟨?_, ?_, ?_⟩
  · intro urlOf route inst addr hfn hurl
    simp only [sources, hfn, hurl, Option.getD_some]
    have hg : guess_type ("song.mp3".toList) = some ("audio/mpeg".toList) := by
      decide
    rw [hg]
    rfl
  · intro urlOf route inst hg
    simp [sources, hg]
  · intro urlOf route inst hurl
    simp [sources, hurl]

/-- A storage backend that resolves every stored name to one fixed address,
used by the `sources` witness. -/
def urlOfW : PyStr → Option PyStr :=
  fun _ => some ("/media/song.mp3".toList)

/-- A storage backend that resolves no address, used by the `sources`
witness. -/
def urlOfNone : PyStr → Option PyStr :=
  fun _ => none

/-- The address of the configured index route, used by the `sources`
witness. -/
def routeW : PyStr := "/chunked-media/".toList

/-- A record with an unrecognized extension, used by the `sources` witness. -/
def instXyz : MediaInstance :=
  { title := "blob".toList
  , file := "media/file.xyz".toList
  , mediaKind := .video
  , width := none
  , height := none
  , thumbnail := [] }

theorem sources_spec_witness :
    sources urlOfW routeW instFileOnly =
      [⟨"/media/song.mp3".toList, "audio/mpeg".toList⟩] ∧
    (sources urlOfW routeW instXyz).map SourceEntry.mimeType =
      ["application/octet-stream".toList] ∧
    (sources urlOfNone routeW instFileOnly).map SourceEntry.src = [routeW] :=
  ⟨sources_spec.1 urlOfW routeW instFileOnly ("/media/song.mp3".toList)
      (by decide) rfl,
   sources_spec.2.1 urlOfW routeW instXyz (by decide),
   sources_spec.2.2 urlOfNone routeW instFileOnly rfl⟩

end ChunkedMedia
